import Mathlib

/-!
Verification of the mkmd terminal editor core (editor.go, file.go).

The Go code is shallowly embedded: the editor session struct becomes a Lean
structure, each mutating method becomes a pure function `Editor → Editor`
(file-backed operations additionally take the backing file's line list and
return the written line list), Go `int` values that are provably non-negative
throughout the modelled operations are `Nat`, values that can go negative
(viewport offsets, scroll arithmetic, raw indices into the rune primitives)
are `Int`, and `float64` momentum arithmetic is modelled with exact rationals
(`ℚ`), with Go's `int(x)` float truncation rendered as `Int.floor` on the
positive quantities the code truncates.  Go `[]rune(s)` is `String.data`,
`utf8.RuneCountInString` is the character count, and Go slice expressions
`xs[a:b]` become `(List.take b xs).drop a` at indices the code has already
clamped into range (where the code does not clamp, theorems carry the
corresponding bound as a hypothesis, since the Go slice would panic there).

Interactive and screen-drawing collaborators (tcell, prompts,
`ensureCursorVisible`, which only adjusts the viewport offsets) are outside
the modelled state transitions and are noted at each use site.
-/

/-- Go `utf8.RuneCountInString` / `runeLen` (editor.go): number of runes. -/
def runeLen (s : String) : Nat := s.data.length

/-- `runeSubstring` (editor.go): substring by rune positions, start inclusive,
end exclusive, clamping out-of-range indices. -/
def runeSubstring (s : String) (start stop : Int) : String :=
  let start := if start < 0 then 0 else start
  let stop := if stop < start then start else stop
  let runes := s.data
  if start ≥ (runes.length : Int) then ""
  else
    let stop := if stop > (runes.length : Int) then (runes.length : Int) else stop
    String.mk ((runes.take stop.toNat).drop start.toNat)

/-- `runeInsert` (editor.go): insert a string at a rune position, clamping the
position into range.  The three `copy` calls build exactly
`runes[:pos] ++ insertRunes ++ runes[pos:]`. -/
def runeInsert (s : String) (pos : Int) (ins : String) : String :=
  let runes := s.data
  let pos := if pos < 0 then 0 else pos
  let pos := if pos > (runes.length : Int) then (runes.length : Int) else pos
  String.mk (runes.take pos.toNat ++ ins.data ++ runes.drop pos.toNat)

/-- `runeDelete` (editor.go): delete runes in `[start, stop)`, clamping;
inverted or empty ranges return the string unchanged.  The two `copy` calls
build exactly `runes[:start] ++ runes[end:]`. -/
def runeDelete (s : String) (start stop : Int) : String :=
  let runes := s.data
  let start := if start < 0 then 0 else start
  let stop := if stop > (runes.length : Int) then (runes.length : Int) else stop
  if start ≥ stop then s
  else String.mk (runes.take start.toNat ++ runes.drop stop.toNat)

/-- `maxUndoStates` (editor.go): cap on the undo/redo history. -/
def maxUndoStates : Nat := 100

/-- The editor session state (struct `Editor`, editor.go), restricted to the
fields the modelled operations read or write.  The `screen`, `filename`,
`searchIndex` and `scrollAcceleration` fields are not used by any modelled
operation.  `float64` fields are modelled as exact rationals. -/
structure Editor where
  lines : List String
  cursorX : Nat
  cursorY : Nat
  width : Int
  height : Int
  offsetY : Int
  offsetX : Int
  undoStack : List (List String)
  redoStack : List (List String)
  modified : Bool
  searchTerm : String
  truncated : Bool
  maxLines : Nat
  selectionStart : Bool
  selectionStartX : Nat
  selectionStartY : Nat
  clipboard : String
  currentChunk : Nat
  cachedWordCount : Nat
  wordCountValid : Bool
  scrollMomentum : ℚ
  maxScrollMomentum : ℚ
  momentumDecay : ℚ
  deriving Repr, DecidableEq

/-- The fresh editor built by `NewEditor` (editor.go) before any file is
loaded, with the 80×24 screen geometry the test helper uses. -/
def initEditor : Editor where
  lines := [""]
  cursorX := 0
  cursorY := 0
  width := 80
  height := 24
  offsetY := 0
  offsetX := 0
  undoStack := []
  redoStack := []
  modified := false
  searchTerm := ""
  truncated := false
  maxLines := 10000
  selectionStart := false
  selectionStartX := 0
  selectionStartY := 0
  clipboard := ""
  currentChunk := 0
  cachedWordCount := 0
  wordCountValid := false
  scrollMomentum := 0
  maxScrollMomentum := 250
  momentumDecay := 17/20

/-- `invalidateWordCount` (editor.go). -/
def invalidateWordCount (e : Editor) : Editor := { e with wordCountValid := false }

/-- `clearSearch` (editor.go). -/
def clearSearch (e : Editor) : Editor := { e with searchTerm := "" }

/-- `clearSelection` (editor.go). -/
def clearSelection (e : Editor) : Editor := { e with selectionStart := false }

/-- `adjustCursorPosition` (editor.go): clamp the cursor back into the
document.  Go computes `len(e.lines) - 1` and corrects a negative result to
`0`; truncated `Nat` subtraction yields the same value. -/
def adjustCursorPosition (e : Editor) : Editor :=
  let cursorY := if e.cursorY ≥ e.lines.length then e.lines.length - 1 else e.cursorY
  let currentLineLength :=
    match e.lines.get? cursorY with
    | some line => runeLen line
    | none => 0
  let cursorX := if e.cursorX > currentLineLength then currentLineLength else e.cursorX
  { e with cursorX := cursorX, cursorY := cursorY }

/-- `pushUndoState` (editor.go): deep-copy the lines onto `undoStack`, evict
the oldest entry past the cap, clear `redoStack`. -/
def pushUndoState (e : Editor) : Editor :=
  let undoStack := e.undoStack ++ [e.lines]
  let undoStack := if undoStack.length > maxUndoStates then undoStack.drop 1 else undoStack
  { e with undoStack := undoStack, redoStack := [] }

/-- `undo` (editor.go): move the live lines onto `redoStack` (itself capped),
pop `undoStack`, adopt the new top, mark modified, re-clamp the cursor. -/
def undo (e : Editor) : Editor :=
  if e.undoStack.length > 1 then
    let redoStack := e.redoStack ++ [e.lines]
    let redoStack := if redoStack.length > maxUndoStates then redoStack.drop 1 else redoStack
    let undoStack := e.undoStack.dropLast
    let previousState := undoStack.getLast?.getD []
    adjustCursorPosition (invalidateWordCount
      { e with redoStack := redoStack, undoStack := undoStack,
               lines := previousState, modified := true })
  else e

/-- `redo` (editor.go): pop `redoStack`, append the popped state back onto
`undoStack` (the source performs no cap check here), adopt it, mark
modified, re-clamp the cursor. -/
def redo (e : Editor) : Editor :=
  if e.redoStack.length > 0 then
    let nextState := e.redoStack.getLast?.getD []
    let redoStack := e.redoStack.dropLast
    let undoStack := e.undoStack ++ [nextState]
    adjustCursorPosition (invalidateWordCount
      { e with redoStack := redoStack, undoStack := undoStack,
               lines := nextState, modified := true })
  else e

/-- Per-rune lowercasing, modelling Go `strings.ToLower`.  `Char.toLower`
agrees with Go `unicode.ToLower` on the ASCII range; every string a settled
claim evaluates is ASCII. -/
def toLowerChars (l : List Char) : List Char := l.map Char.toLower

/-- First rune position at which `needle` occurs in `hay`, or `none`.
Models Go `strings.Index` composed with the source's
`utf8.RuneCountInString(text[:idx])` byte-to-rune conversion: UTF-8 is
self-synchronizing, so the first byte-level match sits on a rune boundary and
that conversion returns precisely the rune position of the first
occurrence. -/
def strIndex (hay needle : List Char) : Option Nat :=
  if needle.isPrefixOf hay then some 0
  else
    match hay with
    | [] => none
    | _ :: t => (strIndex t needle).map (· + 1)

/-- One line probe of `findNext` (editor.go): the occurrence search
`strings.Index(strings.ToLower(string(lineRunes[searchX:])), strings.ToLower(term))`
followed by the byte-to-rune conversion of the match offset. -/
def searchLineFrom (term line : String) (searchX : Nat) : Option Nat :=
  strIndex (toLowerChars (line.data.drop searchX)) (toLowerChars term.data)

/-- The forward scan of `findNext` over whole lines (searchX = 0), carrying
the current line number; used for the lines after the cursor line and for the
wrap-around phase. -/
def findNextScan (term : String) : List String → Nat → Option (Nat × Nat)
  | [], _ => none
  | line :: rest, y =>
    match searchLineFrom term line 0 with
    | some idx => some (y, idx)
    | none => findNextScan term rest (y + 1)

/-- `findNext` (editor.go): forward case-insensitive search from
`(cursorY, cursorX+1)`, then wrap-around over lines `[0, cursorY)`, then the
cursor's own line strictly before the cursor column.  The trailing
`ensureCursorVisible` call (render.go) only adjusts the viewport offset
fields and is outside the modelled transition. -/
def findNext (e : Editor) : Editor :=
  if e.searchTerm = "" then e
  else
    let startY := e.cursorY
    let startX := e.cursorX + 1
    let phase1 : Option (Nat × Nat) :=
      match e.lines.drop startY with
      | [] => none
      | line :: rest =>
        let onCursorLine :=
          if startX ≥ line.data.length then none
          else (searchLineFrom e.searchTerm line startX).map (fun idx => (startY, startX + idx))
        match onCursorLine with
        | some r => some r
        | none => findNextScan e.searchTerm rest (startY + 1)
    match phase1 with
    | some (y, x) => { e with cursorY := y, cursorX := x }
    | none =>
      match findNextScan e.searchTerm (e.lines.take startY) 0 with
      | some (y, x) => { e with cursorY := y, cursorX := x }
      | none =>
        match e.lines.get? startY with
        | none => e
        | some line =>
          if e.cursorX > 0 ∧ e.cursorX ≤ line.data.length then
            match strIndex (toLowerChars (line.data.take e.cursorX)) (toLowerChars e.searchTerm.data) with
            | some idx => { e with cursorX := idx }
            | none => e
          else e

/-- `deleteSelection` (editor.go): push an undo snapshot, normalize the
selection range, remove it (single-line splice, or merge of partial first and
last lines with the lines between dropped), reposition the cursor, clear the
selection, mark modified. -/
def deleteSelection (e : Editor) : Editor :=
  if ¬ e.selectionStart then e
  else
    let e := invalidateWordCount (clearSearch (pushUndoState e))
    let swapped := e.selectionStartY > e.cursorY ∨
      (e.selectionStartY = e.cursorY ∧ e.selectionStartX > e.cursorX)
    let startX := if swapped then e.cursorX else e.selectionStartX
    let startY := if swapped then e.cursorY else e.selectionStartY
    let endX := if swapped then e.selectionStartX else e.cursorX
    let endY := if swapped then e.selectionStartY else e.cursorY
    let e :=
      if startY = endY then
        match e.lines.get? startY with
        | none => e
        | some line =>
          let runes := line.data
          let sx := if startX > runes.length then runes.length else startX
          let ex := if endX > runes.length then runes.length else endX
          { e with lines := e.lines.set startY (String.mk (runes.take sx ++ runes.drop ex)),
                   cursorX := sx, cursorY := startY }
      else
        if startY < e.lines.length ∧ endY < e.lines.length then
          let startRunes := ((e.lines.get? startY).getD "").data
          let endRunes := ((e.lines.get? endY).getD "").data
          let sx := if startX > startRunes.length then startRunes.length else startX
          let ex := if endX > endRunes.length then endRunes.length else endX
          let newLine := String.mk (startRunes.take sx ++ endRunes.drop ex)
          { e with lines := e.lines.take startY ++ [newLine] ++ e.lines.drop (endY + 1),
                   cursorX := sx, cursorY := startY }
        else e
    { (clearSelection e) with modified := true }

/-- Go `strings.Split(s, "\n")`: the segments of `s` between newline
characters, in order; an empty string yields `[""]`. -/
def splitNl : List Char → List Char → List String
  | [], acc => [String.mk acc.reverse]
  | c :: rest, acc =>
    if c = '\n' then String.mk acc.reverse :: splitNl rest []
    else splitNl rest (c :: acc)

/-- `paste` (editor.go): push an undo snapshot, delete any active selection
(which pushes a second snapshot inside `deleteSelection`), then splice the
clipboard in, single-line or multi-line.  `strings.Split(clipboard, "\n")` is
`splitNl`; the Go indexing `e.lines[e.cursorY]` is modelled with a
default that is never reached while the cursor invariant holds. -/
def paste (e : Editor) : Editor :=
  if e.clipboard = "" then e
  else
    let e := clearSearch (pushUndoState e)
    let e := if e.selectionStart then deleteSelection e else e
    let pieces := splitNl e.clipboard.data []
    match pieces with
    | [] => e
    | [single] =>
      let line := (e.lines.get? e.cursorY).getD ""
      { e with lines := e.lines.set e.cursorY (runeInsert line (e.cursorX : Int) single),
               cursorX := e.cursorX + runeLen single, modified := true }
    | first :: restPieces =>
      let runes := ((e.lines.get? e.cursorY).getD "").data
      let firstPart := String.mk (runes.take e.cursorX)
      let lastPart := String.mk (runes.drop e.cursorX)
      let middle := restPieces.dropLast
      let lastPiece := restPieces.getLast?.getD ""
      { e with
        lines := e.lines.take e.cursorY ++ [firstPart ++ first] ++ middle
          ++ [lastPiece ++ lastPart] ++ e.lines.drop (e.cursorY + 1),
        cursorY := e.cursorY + (pieces.length - 1),
        cursorX := runeLen lastPiece,
        modified := true }

/-- `insertChar` (editor.go): push an undo snapshot and insert one rune at
the (clamped) cursor column. -/
def insertChar (e : Editor) (ch : Char) : Editor :=
  let e := invalidateWordCount (clearSearch (pushUndoState e))
  let e :=
    if e.cursorY ≥ e.lines.length then
      { e with lines := e.lines ++ [""], cursorY := e.lines.length }
    else e
  let line := (e.lines.get? e.cursorY).getD ""
  let cx := if e.cursorX > line.data.length then line.data.length else e.cursorX
  { e with lines := e.lines.set e.cursorY (runeInsert line (cx : Int) (String.mk [ch])),
           cursorX := cx + 1, modified := true }

/-- `insertNewline` (editor.go): push an undo snapshot, split the cursor line
at the (clamped) cursor column, and copy the split line's leading run of
spaces and tabs onto the new second line. -/
def insertNewline (e : Editor) : Editor :=
  let e := invalidateWordCount (clearSearch (pushUndoState e))
  let e :=
    if e.cursorY ≥ e.lines.length then
      { e with lines := e.lines ++ [""], cursorY := e.lines.length }
    else e
  let runes := ((e.lines.get? e.cursorY).getD "").data
  let cx := if e.cursorX > runes.length then runes.length else e.cursorX
  let firstPart := String.mk (runes.take cx)
  let secondPart := String.mk (runes.drop cx)
  let leadingWhitespace := String.mk (runes.takeWhile (fun c => c = ' ' || c = '\t'))
  let lines₁ := e.lines.set e.cursorY firstPart
  { e with lines := lines₁.take (e.cursorY + 1) ++ [leadingWhitespace ++ secondPart]
             ++ lines₁.drop (e.cursorY + 1),
           cursorY := e.cursorY + 1,
           cursorX := runeLen leadingWhitespace, modified := true }

/-- `backspace` (editor.go): push an undo snapshot, then delete the rune
before the cursor, or join with the previous line at column 0. -/
def backspace (e : Editor) : Editor :=
  let e := invalidateWordCount (clearSearch (pushUndoState e))
  if e.cursorX > 0 then
    let line := (e.lines.get? e.cursorY).getD ""
    { e with lines := e.lines.set e.cursorY (runeDelete line ((e.cursorX : Int) - 1) (e.cursorX : Int)),
             cursorX := e.cursorX - 1, modified := true }
  else if e.cursorY > 0 then
    let prevLine := (e.lines.get? (e.cursorY - 1)).getD ""
    let currentLine := (e.lines.get? e.cursorY).getD ""
    let lines₁ := e.lines.set (e.cursorY - 1) (prevLine ++ currentLine)
    { e with lines := lines₁.take e.cursorY ++ lines₁.drop (e.cursorY + 1),
             cursorY := e.cursorY - 1, cursorX := runeLen prevLine, modified := true }
  else e

/-- `delete` (editor.go): push an undo snapshot, then delete the rune at the
cursor, or join with the next line at end of line. -/
def delete (e : Editor) : Editor :=
  let e := invalidateWordCount (clearSearch (pushUndoState e))
  if e.cursorY < e.lines.length then
    let line := (e.lines.get? e.cursorY).getD ""
    if e.cursorX < line.data.length then
      { e with lines := e.lines.set e.cursorY (runeDelete line (e.cursorX : Int) ((e.cursorX : Int) + 1)),
               modified := true }
    else if e.cursorY < e.lines.length - 1 then
      let nextLine := (e.lines.get? (e.cursorY + 1)).getD ""
      let lines₁ := e.lines.set e.cursorY (line ++ nextLine)
      { e with lines := lines₁.take (e.cursorY + 1) ++ lines₁.drop (e.cursorY + 2),
               modified := true }
    else e
  else e

/-- `addScrollMomentum` (editor.go): accumulate wheel momentum, clamped to
`±maxScrollMomentum`. -/
def addScrollMomentum (e : Editor) (delta : ℚ) : Editor :=
  let m := e.scrollMomentum + delta
  let m := if m > e.maxScrollMomentum then e.maxScrollMomentum
    else if m < -e.maxScrollMomentum then -e.maxScrollMomentum else m
  { e with scrollMomentum := m }

/-- The movement block of `applyScrollMomentum` (editor.go): move `offsetY`
by `int(momentum * 0.1)` (at least 1) in the direction of travel, clamping at
the top or at `len(lines) - height + 1` and zeroing the momentum when the
clamp fires.  Go's `int(x)` truncates toward zero; both converted quantities
are positive here, so it is `Int.floor`. -/
def momentumMove (e : Editor) : Editor :=
  if e.scrollMomentum > 1/10 then
    let scrollAmount := ⌊e.scrollMomentum * (1/10)⌋
    let scrollAmount := if scrollAmount < 1 then 1 else scrollAmount
    let offsetY := e.offsetY + scrollAmount
    let maxOffset := (e.lines.length : Int) - e.height + 1
    let maxOffset := if maxOffset < 0 then 0 else maxOffset
    if offsetY > maxOffset then { e with offsetY := maxOffset, scrollMomentum := 0 }
    else { e with offsetY := offsetY }
  else if e.scrollMomentum < -(1/10) then
    let scrollAmount := ⌊(-e.scrollMomentum) * (1/10)⌋
    let scrollAmount := if scrollAmount < 1 then 1 else scrollAmount
    let offsetY := e.offsetY - scrollAmount
    if offsetY < 0 then { e with offsetY := 0, scrollMomentum := 0 }
    else { e with offsetY := offsetY }
  else e

/-- The decay-and-snap tail of `applyScrollMomentum` (editor.go): multiply by
`momentumDecay`, then snap to exactly 0 when the magnitude is below 0.1. -/
def momentumDecaySnap (e : Editor) : Editor :=
  let m := e.scrollMomentum * e.momentumDecay
  let m := if m < 1/10 ∧ -(1/10) < m then 0 else m
  { e with scrollMomentum := m }

/-- `applyScrollMomentum` (editor.go): a no-op at momentum exactly 0;
otherwise the movement block followed by decay and snap. -/
def applyScrollMomentum (e : Editor) : Editor :=
  if e.scrollMomentum = 0 then e
  else momentumDecaySnap (momentumMove e)

/-- `loadFile` (file.go), with the backing file's lines passed explicitly:
read at most `maxLines` lines, set `truncated` when a line beyond the window
exists (the field is left unchanged otherwise), represent an empty read as a
single empty line, push the baseline undo snapshot. -/
def loadFile (fileLines : List String) (e : Editor) : Editor :=
  let truncated := if fileLines.length > e.maxLines then true else e.truncated
  let lines := fileLines.take e.maxLines
  let lines := if lines.length = 0 then [""] else lines
  invalidateWordCount (pushUndoState { e with lines := lines, truncated := truncated })

/-- `loadNextChunk` (editor.go), with the backing file's lines passed
explicitly.  The interactive save prompt at the top only runs when
`e.modified`; the model covers navigation with no save performed (every
settled claim that uses this function reaches it with `modified = false`).
The skip loop tests `lineCount < skipLines` before calling `Scan`, so it
drops exactly `skipLines` lines; the read loop's condition calls `Scan`
before testing `chunkLines < maxLines`, so once `maxLines` lines are read it
consumes one look-ahead line, and the explicit probe `if scanner.Scan()` then
consumes another — hence `hasMoreContent` is true only when at least
`maxLines + 2` lines remain past the skip.  When the new window is empty the
source has already overwritten `e.lines` with the empty slice and returns
without restoring it. -/
def loadNextChunk (fileLines : List String) (e : Editor) : Editor :=
  if ¬ e.truncated then e
  else
    let skipLines := (e.currentChunk + 1) * e.maxLines
    let rest := fileLines.drop skipLines
    let newLines := rest.take e.maxLines
    let hasMoreContent := decide (rest.length ≥ e.maxLines + 2)
    if newLines.length = 0 then { e with lines := [] }
    else
      pushUndoState (clearSearch (clearSelection
        { e with lines := newLines,
                 currentChunk := e.currentChunk + 1,
                 truncated := hasMoreContent,
                 cursorX := 0, cursorY := 0, offsetY := 0, offsetX := 0 }))

/-- `loadPrevChunk` (editor.go), with the backing file's lines passed
explicitly; same prompt remark as `loadNextChunk`.  A no-op at chunk 0;
otherwise reload the previous window, guard the empty read with a single
empty line, and set `truncated` unconditionally. -/
def loadPrevChunk (fileLines : List String) (e : Editor) : Editor :=
  if e.currentChunk = 0 then e
  else
    let skipLines := (e.currentChunk - 1) * e.maxLines
    let newLines := (fileLines.drop skipLines).take e.maxLines
    let newLines := if newLines.length = 0 then [""] else newLines
    pushUndoState (clearSearch (clearSelection
      { e with lines := newLines,
               currentChunk := e.currentChunk - 1,
               truncated := true,
               cursorX := 0, cursorY := 0, offsetY := 0, offsetX := 0 }))

/-- `saveEntireFile` (file.go): write the live lines verbatim (joined with
newlines on disk); clear `modified`.  Returns the written line list and the
updated editor. -/
def saveEntireFile (e : Editor) : List String × Editor :=
  (e.lines, { e with modified := false })

/-- `saveChunkToFile` (file.go): re-read the whole backing file, splice the
live lines in place of file lines
`[currentChunk*maxLines, min(len(file), currentChunk*maxLines + maxLines))`,
and rewrite the file; clear `modified`.  The Go slice
`allLines[:chunkStartLine]` requires `chunkStartLine ≤ len(allLines)` (it
panics beyond the capacity); theorems about this function carry that bound,
under which `List.take`/`List.drop` coincide with Go slicing. -/
def saveChunkToFile (fileLines : List String) (e : Editor) : List String × Editor :=
  let chunkStartLine := e.currentChunk * e.maxLines
  let chunkEndLine := chunkStartLine + e.maxLines
  let chunkEndLine := if chunkEndLine > fileLines.length then fileLines.length else chunkEndLine
  (fileLines.take chunkStartLine ++ e.lines ++ fileLines.drop chunkEndLine,
   { e with modified := false })

/-- `saveFile` (file.go): dispatch on `currentChunk == 0 && !truncated`
between the verbatim whole-file write and the chunked splice. -/
def saveFile (fileLines : List String) (e : Editor) : List String × Editor :=
  if e.currentChunk = 0 ∧ e.truncated = false then saveEntireFile e
  else saveChunkToFile fileLines e

/-- A history operation for the bounded-undo claim: one of `pushUndoState`,
`undo`, `redo`. -/
inductive HistOp where
  | push : HistOp
  | undoOp : HistOp
  | redoOp : HistOp
  deriving Repr, DecidableEq

/-- Apply one history operation. -/
def applyHistOp (e : Editor) : HistOp → Editor
  | HistOp.push => pushUndoState e
  | HistOp.undoOp => undo e
  | HistOp.redoOp => redo e

/-- Apply a sequence of history operations, oldest first. -/
def applyHistOps (ops : List HistOp) (e : Editor) : Editor :=
  ops.foldl applyHistOp e

theorem takeLenAppend {α : Type} (A z : List α) (n : Nat) (h : A.length = n) :
    (A ++ z).take n = A := by
  subst h; exact List.take_left A z

theorem dropLenAppend {α : Type} (A z : List α) (n : Nat) (h : A.length = n) :
    (A ++ z).drop n = z := by
  subst h; exact List.drop_left A z

theorem mkEqEmptyOfLe (L : List Char) (k t : Nat) (h : min k L.length ≤ t) :
    String.mk ((L.take k).drop t) = "" := by
  have hd : (L.take k).drop t = [] := List.drop_eq_nil_of_le (by rw [List.length_take]; exact h)
  rw [hd]

theorem mkDropTakeCongr (L : List Char) (k₁ t₁ k₂ t₂ : Nat) (hk : k₁ = k₂) (ht : t₁ = t₂) :
    String.mk ((L.take k₁).drop t₁) = String.mk ((L.take k₂).drop t₂) := by
  subst hk; subst ht; rfl

theorem mkTakeDropCongr (L : List Char) (a₁ b₁ a₂ b₂ : Nat) (ha : a₁ = a₂) (hb : b₁ = b₂) :
    String.mk (L.take a₁ ++ L.drop b₁) = String.mk (L.take a₂ ++ L.drop b₂) := by
  subst ha; subst hb; rfl

theorem mkInsCongr (L T : List Char) (k₁ k₂ : Nat) (h : k₁ = k₂) :
    String.mk (L.take k₁ ++ T ++ L.drop k₁) = String.mk (L.take k₂ ++ T ++ L.drop k₂) := by
  subst h; rfl

/-- C6: for every string `s`, insertion text `t`, and rune position `p` with
`0 ≤ p ≤ runeLen s`, deleting the inserted range undoes the insertion:
`runeDelete (runeInsert s p t) p (p + runeLen t) = s`. -/
theorem c6_insert_delete_inverse (s t : String) (p : Int)
    (hp0 : 0 ≤ p) (hpLen : p ≤ (runeLen s : Int)) :
    runeDelete (runeInsert s p t) p (p + (runeLen t : Int)) = s := by
  simp only [runeLen] at hpLen ⊢
  have h1 : ¬ p < 0 := by omega
  have h2 : ¬ p > (s.data.length : Int) := by omega
  have hpn : p.toNat ≤ s.data.length := by omega
  have hIns : runeInsert s p t
      = String.mk (s.data.take p.toNat ++ t.data ++ s.data.drop p.toNat) := by
    simp only [runeInsert, if_neg h1, if_neg h2]
  rw [hIns]
  have hA : (s.data.take p.toNat).length = p.toNat := by
    rw [List.length_take]; omega
  have hX : (s.data.take p.toNat ++ t.data ++ s.data.drop p.toNat).length
      = s.data.length + t.data.length := by
    simp [List.length_take, List.length_drop]; omega
  have h3 : ¬ p + (t.data.length : Int)
      > (((s.data.take p.toNat ++ t.data ++ s.data.drop p.toNat) : List Char).length : Int) := by
    rw [hX]; omega
  by_cases hm : t.data.length = 0
  · have ht : t.data = [] := List.length_eq_zero.mp hm
    have hcond : p ≥ p + (t.data.length : Int) := by omega
    simp only [runeDelete, if_neg h1, if_neg h3, if_pos hcond]
    rw [ht]
    simp [List.take_append_drop]
  · have hcond : ¬ p ≥ p + (t.data.length : Int) := by omega
    simp only [runeDelete, if_neg h1, if_neg h3, if_neg hcond]
    have hTake : (s.data.take p.toNat ++ t.data ++ s.data.drop p.toNat).take p.toNat
        = s.data.take p.toNat := by
      rw [List.append_assoc]
      exact takeLenAppend _ _ _ hA
    have hDrop : (s.data.take p.toNat ++ t.data ++ s.data.drop p.toNat).drop
        (p + (t.data.length : Int)).toNat = s.data.drop p.toNat := by
      apply dropLenAppend
      rw [List.length_append, hA]; omega
    rw [hTake, hDrop, List.take_append_drop]

/-- Witness for C6 at `s = "hello"`, `t = "XX"`, `p = 2`. -/
theorem c6_insert_delete_inverse_witness :
    (0 : Int) ≤ 2 ∧ (2 : Int) ≤ (runeLen "hello" : Int) ∧
    runeDelete (runeInsert "hello" 2 "XX") 2 (2 + (runeLen "XX" : Int)) = "hello" :=
  ⟨by decide, by decide, c6_insert_delete_inverse "hello" "XX" 2 (by decide) (by decide)⟩

/-- C7: the text primitives clamp out-of-range indices instead of failing:
each of `runeSubstring`, `runeDelete` agrees with itself at indices clamped
to `[0, runeLen s]`, an inverted range yields the empty substring and deletes
nothing, and `runeInsert` agrees with itself at the position clamped to
`[0, runeLen s]` (totality — "never failing" — is structural: each primitive
is a total function into `String`). -/
theorem c7_primitives_clamp (s t : String) (a b p : Int) :
    (runeSubstring s a b = runeSubstring s (max a 0) (min b (runeLen s : Int))) ∧
    (b < a → runeSubstring s a b = "") ∧
    (runeDelete s a b = runeDelete s (max a 0) (min b (runeLen s : Int))) ∧
    (b ≤ a → runeDelete s a b = s) ∧
    (runeInsert s p t = runeInsert s (max (min p (runeLen s : Int)) 0) t) := by
  simp only [runeLen]
  refine ⟨?_, ?_, ?_, ?_, ?_⟩
  · simp only [runeSubstring]
    split_ifs <;>
      first
        | rfl
        | (exfalso; omega)
        | exact mkDropTakeCongr _ _ _ _ _ (by omega) (by omega)
  · intro hba
    simp only [runeSubstring]
    split_ifs <;>
      first
        | rfl
        | (exfalso; omega)
        | exact mkEqEmptyOfLe _ _ _ (by omega)
  · simp only [runeDelete]
    split_ifs <;>
      first
        | rfl
        | (exfalso; omega)
        | exact mkTakeDropCongr _ _ _ _ _ (by omega) (by omega)
  · intro hba
    simp only [runeDelete]
    split_ifs <;>
      first
        | rfl
        | (exfalso; omega)
  · simp only [runeInsert]
    split_ifs <;>
      first
        | rfl
        | (exfalso; omega)
        | exact mkInsCongr _ _ _ _ (by omega)

/-- Witness for C7, exercising a negative start, an end beyond the length,
and inverted ranges on concrete strings (the out-of-range rows of the
repository's own test tables). -/
theorem c7_primitives_clamp_witness :
    (runeSubstring "hello" (-1) 3
      = runeSubstring "hello" (max (-1) 0) (min 3 (runeLen "hello" : Int))) ∧
    ((2 : Int) < 3 ∧ runeSubstring "hello" 3 2 = "") ∧
    (runeDelete "hello" (-1) 7
      = runeDelete "hello" (max (-1) 0) (min 7 (runeLen "hello" : Int))) ∧
    ((2 : Int) ≤ 4 ∧ runeDelete "hello" 4 2 = "hello") ∧
    (runeInsert "hello" 10 "X"
      = runeInsert "hello" (max (min 10 (runeLen "hello" : Int)) 0) "X") :=
  ⟨(c7_primitives_clamp "hello" "X" (-1) 3 10).1,
   ⟨by decide, (c7_primitives_clamp "hello" "X" 3 2 10).2.1 (by decide)⟩,
   (c7_primitives_clamp "hello" "X" (-1) 7 10).2.2.1,
   ⟨by decide, (c7_primitives_clamp "hello" "X" 4 2 10).2.2.2.1 (by decide)⟩,
   (c7_primitives_clamp "hello" "X" (-1) 3 10).2.2.2.2⟩

/-- C1: in chunked mode (`currentChunk ≠ 0` or `truncated`), `saveFile`
splices the live document in place of the backing-file line range
`[currentChunk*maxLines, min(len(file), (currentChunk+1)*maxLines))`: the
written file is before-range lines, then the live lines, then after-range
lines, so every file line outside that range is preserved unchanged and an
edit appears at absolute line offset `currentChunk*maxLines`.  The bound
`currentChunk*maxLines ≤ len(file)` is where the Go slice in
`saveChunkToFile` is defined (see its doc comment). -/
theorem c1_chunked_save_splices_range (fileLines : List String) (e : Editor)
    (hmode : ¬ (e.currentChunk = 0 ∧ e.truncated = false))
    (hstart : e.currentChunk * e.maxLines ≤ fileLines.length) :
    (saveFile fileLines e).1
      = fileLines.take (e.currentChunk * e.maxLines) ++ e.lines
        ++ fileLines.drop (min fileLines.length (e.currentChunk * e.maxLines + e.maxLines)) ∧
    (∀ i, i < e.currentChunk * e.maxLines →
      ((saveFile fileLines e).1)[i]? = fileLines[i]?) ∧
    (∀ j, j < e.lines.length →
      ((saveFile fileLines e).1)[e.currentChunk * e.maxLines + j]? = e.lines[j]?) ∧
    (∀ k, ((saveFile fileLines e).1)[e.currentChunk * e.maxLines + e.lines.length + k]?
      = fileLines[min fileLines.length (e.currentChunk * e.maxLines + e.maxLines) + k]?) := by
  have hsplice : (saveFile fileLines e).1
      = fileLines.take (e.currentChunk * e.maxLines) ++ e.lines
        ++ fileLines.drop (min fileLines.length (e.currentChunk * e.maxLines + e.maxLines)) := by
    simp only [saveFile, if_neg hmode, saveChunkToFile]
    have : (if e.currentChunk * e.maxLines + e.maxLines > fileLines.length
        then fileLines.length else e.currentChunk * e.maxLines + e.maxLines)
        = min fileLines.length (e.currentChunk * e.maxLines + e.maxLines) := by
      split_ifs <;> omega
    rw [this]
  rw [hsplice]
  have hA : (fileLines.take (e.currentChunk * e.maxLines)).length
      = e.currentChunk * e.maxLines := by
    rw [List.length_take]; omega
  refine ⟨rfl, ?_, ?_, ?_⟩
  · intro i hi
    rw [List.getElem?_append_left (by rw [List.length_append, hA]; omega),
        List.getElem?_append_left (by omega : i < (fileLines.take (e.currentChunk * e.maxLines)).length),
        List.getElem?_take_of_lt hi]
  · intro j hj
    rw [List.getElem?_append_left (by rw [List.length_append, hA]; omega),
        List.getElem?_append_right (by omega : (fileLines.take (e.currentChunk * e.maxLines)).length ≤ e.currentChunk * e.maxLines + j)]
    congr 1
    omega
  · intro k
    rw [List.getElem?_append_right (by rw [List.length_append, hA]; omega)]
    rw [List.getElem?_drop]
    congr 1
    rw [List.length_append, hA]
    omega

/-- The backing file for the C1 witness. -/
def c1File : List String := ["a", "b", "c", "d"]

/-- The chunked-mode editor for the C1 witness: chunk 1 of a 4-line file
with chunk size 1, live document of two lines. -/
def c1Editor : Editor := { initEditor with
    currentChunk := 1, maxLines := 1, lines := ["X", "Y"], truncated := true }

/-- Witness for C1: the concrete splice `["a"] ++ ["X","Y"] ++ ["c","d"]`. -/
theorem c1_chunked_save_splices_range_witness :
    (¬ (c1Editor.currentChunk = 0 ∧ c1Editor.truncated = false)) ∧
    c1Editor.currentChunk * c1Editor.maxLines ≤ c1File.length ∧
    (saveFile c1File c1Editor).1
      = c1File.take (c1Editor.currentChunk * c1Editor.maxLines) ++ c1Editor.lines
        ++ c1File.drop (min c1File.length
            (c1Editor.currentChunk * c1Editor.maxLines + c1Editor.maxLines)) :=
  ⟨by decide, by decide,
   (c1_chunked_save_splices_range c1File c1Editor (by decide) (by decide)).1⟩

set_option maxRecDepth 8000

/-- C2: for a backing file of 15,000 lines and the default `maxLines` of
10,000, unchanged on disk between operations: the initial load yields
`truncated = true`, exactly the first 10,000 file lines, `currentChunk = 0`;
a subsequent `loadNextChunk` yields `currentChunk = 1`, exactly 5,000 lines
whose first line is original file line 10,001 (index 10,000), and
`truncated = false`; a subsequent `loadPrevChunk` restores `currentChunk = 0`
with the original first 10,000 lines verbatim and `truncated = true`. -/
theorem c2_chunk_navigation_15000 (fileLines : List String) (hlen : fileLines.length = 15000) :
    ((loadFile fileLines initEditor).truncated = true ∧
     (loadFile fileLines initEditor).lines = fileLines.take 10000 ∧
     (loadFile fileLines initEditor).lines.length = 10000 ∧
     (loadFile fileLines initEditor).currentChunk = 0) ∧
    ((loadNextChunk fileLines (loadFile fileLines initEditor)).currentChunk = 1 ∧
     (loadNextChunk fileLines (loadFile fileLines initEditor)).lines.length = 5000 ∧
     (loadNextChunk fileLines (loadFile fileLines initEditor)).lines.head? = fileLines[10000]? ∧
     (loadNextChunk fileLines (loadFile fileLines initEditor)).truncated = false) ∧
    ((loadPrevChunk fileLines (loadNextChunk fileLines (loadFile fileLines initEditor))).currentChunk = 0 ∧
     (loadPrevChunk fileLines (loadNextChunk fileLines (loadFile fileLines initEditor))).lines = fileLines.take 10000 ∧
     (loadPrevChunk fileLines (loadNextChunk fileLines (loadFile fileLines initEditor))).truncated = true) := by
  have hml : initEditor.maxLines = 10000 := rfl
  have htakeLen : (fileLines.take 10000).length = 10000 := by
    rw [List.length_take]; omega
  have h0 : loadFile fileLines initEditor = { initEditor with
      lines := fileLines.take 10000, truncated := true,
      undoStack := [fileLines.take 10000], redoStack := [], wordCountValid := false } := by
    simp only [loadFile, pushUndoState, invalidateWordCount, maxUndoStates, hml, hlen, htakeLen]
    norm_num [initEditor]
  have hdropLen : (fileLines.drop 10000).length = 5000 := by
    rw [List.length_drop]; omega
  have htake2 : (fileLines.drop 10000).take 10000 = fileLines.drop 10000 :=
    List.take_of_length_le (by omega)
  have h1 : loadNextChunk fileLines (loadFile fileLines initEditor)
      = pushUndoState (clearSearch (clearSelection
        { (loadFile fileLines initEditor) with
          lines := fileLines.drop 10000, currentChunk := 1, truncated := false,
          cursorX := 0, cursorY := 0, offsetY := 0, offsetX := 0 })) := by
    rw [h0]
    simp only [loadNextChunk, htake2]
    norm_num [initEditor, hdropLen, hlen, htake2]
  have h1full : loadNextChunk fileLines (loadFile fileLines initEditor) =
      { lines := fileLines.drop 10000, cursorX := 0, cursorY := 0, width := 80, height := 24,
        offsetY := 0, offsetX := 0, undoStack := [fileLines.take 10000, fileLines.drop 10000],
        redoStack := [], modified := false, searchTerm := "", truncated := false,
        maxLines := 10000, selectionStart := false, selectionStartX := 0, selectionStartY := 0,
        clipboard := "", currentChunk := 1, cachedWordCount := 0, wordCountValid := false,
        scrollMomentum := 0, maxScrollMomentum := 250, momentumDecay := 17/20 } := by
    rw [h1, h0]
    norm_num [initEditor, pushUndoState, clearSearch, clearSelection, maxUndoStates]
  have htake3 : (fileLines.drop 0).take 10000 = fileLines.take 10000 := by
    rw [List.drop_zero]
  have h2full : loadPrevChunk fileLines (loadNextChunk fileLines (loadFile fileLines initEditor)) =
      { lines := fileLines.take 10000, cursorX := 0, cursorY := 0, width := 80, height := 24,
        offsetY := 0, offsetX := 0,
        undoStack := [fileLines.take 10000, fileLines.drop 10000, fileLines.take 10000],
        redoStack := [], modified := false, searchTerm := "", truncated := true,
        maxLines := 10000, selectionStart := false, selectionStartX := 0, selectionStartY := 0,
        clipboard := "", currentChunk := 0, cachedWordCount := 0, wordCountValid := false,
        scrollMomentum := 0, maxScrollMomentum := 250, momentumDecay := 17/20 } := by
    rw [h1full]
    simp only [loadPrevChunk]
    norm_num [htake3, htakeLen]
    norm_num [pushUndoState, clearSearch, clearSelection, maxUndoStates]
  refine ⟨⟨?_, ?_, ?_, ?_⟩, ⟨?_, ?_, ?_, ?_⟩, ⟨?_, ?_, ?_⟩⟩
  · rw [h0]
  · rw [h0]
  · rw [h0]; exact htakeLen
  · rw [h0]; rfl
  · rw [h1full]
  · rw [h1full]; exact hdropLen
  · rw [h1full]
    show (fileLines.drop 10000).head? = fileLines[10000]?
    rw [List.head?_eq_getElem?, List.getElem?_drop]
  · rw [h1full]
  · rw [h2full]
  · rw [h2full]
  · rw [h2full]

/-- Witness for C2 on a concrete 15,000-line file. -/
theorem c2_chunk_navigation_15000_witness :
    (List.replicate 15000 "x").length = 15000 ∧
    ((loadFile (List.replicate 15000 "x") initEditor).truncated = true ∧
     (loadFile (List.replicate 15000 "x") initEditor).lines = (List.replicate 15000 "x").take 10000 ∧
     (loadFile (List.replicate 15000 "x") initEditor).lines.length = 10000 ∧
     (loadFile (List.replicate 15000 "x") initEditor).currentChunk = 0) ∧
    ((loadNextChunk (List.replicate 15000 "x") (loadFile (List.replicate 15000 "x") initEditor)).currentChunk = 1 ∧
     (loadNextChunk (List.replicate 15000 "x") (loadFile (List.replicate 15000 "x") initEditor)).lines.length = 5000 ∧
     (loadNextChunk (List.replicate 15000 "x") (loadFile (List.replicate 15000 "x") initEditor)).lines.head? = (List.replicate 15000 "x")[10000]? ∧
     (loadNextChunk (List.replicate 15000 "x") (loadFile (List.replicate 15000 "x") initEditor)).truncated = false) ∧
    ((loadPrevChunk (List.replicate 15000 "x") (loadNextChunk (List.replicate 15000 "x") (loadFile (List.replicate 15000 "x") initEditor))).currentChunk = 0 ∧
     (loadPrevChunk (List.replicate 15000 "x") (loadNextChunk (List.replicate 15000 "x") (loadFile (List.replicate 15000 "x") initEditor))).lines = (List.replicate 15000 "x").take 10000 ∧
     (loadPrevChunk (List.replicate 15000 "x") (loadNextChunk (List.replicate 15000 "x") (loadFile (List.replicate 15000 "x") initEditor))).truncated = true) :=
  ⟨List.length_replicate 15000 "x",
   c2_chunk_navigation_15000 (List.replicate 15000 "x") (List.length_replicate 15000 "x")⟩

theorem adjustStacks (e : Editor) :
    (adjustCursorPosition e).undoStack = e.undoStack ∧
    (adjustCursorPosition e).redoStack = e.redoStack ∧
    (adjustCursorPosition e).modified = e.modified := ⟨rfl, rfl, rfl⟩

theorem pushStacks (e : Editor) :
    (pushUndoState e).undoStack
      = (if (e.undoStack ++ [e.lines]).length > maxUndoStates
          then (e.undoStack ++ [e.lines]).drop 1 else e.undoStack ++ [e.lines]) ∧
    (pushUndoState e).redoStack = [] := by
  constructor <;> rfl

theorem undoStacks (e : Editor) (h : e.undoStack.length > 1) :
    (undo e).undoStack = e.undoStack.dropLast ∧
    (undo e).redoStack
      = (if (e.redoStack ++ [e.lines]).length > maxUndoStates
          then (e.redoStack ++ [e.lines]).drop 1 else e.redoStack ++ [e.lines]) := by
  constructor <;>
    simp only [undo, if_pos h, (adjustStacks _).1, (adjustStacks _).2.1, invalidateWordCount]

theorem redoStacks (e : Editor) (h : e.redoStack.length > 0) :
    (redo e).undoStack = e.undoStack ++ [e.redoStack.getLast?.getD []] ∧
    (redo e).redoStack = e.redoStack.dropLast := by
  constructor <;>
    simp only [redo, if_pos h, (adjustStacks _).1, (adjustStacks _).2.1, invalidateWordCount]

theorem histSumStep (e : Editor) (op : HistOp)
    (h : e.undoStack.length + e.redoStack.length ≤ maxUndoStates) :
    (applyHistOp e op).undoStack.length + (applyHistOp e op).redoStack.length
      ≤ maxUndoStates := by
  cases op with
  | push =>
    simp only [applyHistOp]
    rw [(pushStacks e).1, (pushStacks e).2]
    split_ifs with hlen <;>
      simp only [List.length_drop, List.length_append, List.length_cons,
        List.length_nil, maxUndoStates] at * <;> omega
  | undoOp =>
    simp only [applyHistOp]
    by_cases hlen : e.undoStack.length > 1
    · rw [(undoStacks e hlen).1, (undoStacks e hlen).2]
      split_ifs with hredo <;>
        simp only [List.length_dropLast, List.length_drop, List.length_append,
          List.length_cons, List.length_nil, maxUndoStates] at * <;> omega
    · rw [undo, if_neg hlen]; exact h
  | redoOp =>
    simp only [applyHistOp]
    by_cases hlen : e.redoStack.length > 0
    · rw [(redoStacks e hlen).1, (redoStacks e hlen).2]
      simp only [List.length_dropLast, List.length_append,
        List.length_cons, List.length_nil, maxUndoStates] at *
      omega
    · rw [redo, if_neg hlen]; exact h

/-- C3 (amended): starting from any editor state whose two history stacks
jointly hold at most 100 snapshots — true of the initial state and preserved
by every operation — any sequence of `pushUndoState`, `undo`, `redo` keeps
`undoStack` at no more than 100 entries (pushing past the cap evicts the
oldest entry first).  The joint bound is the inductive invariant; the
per-stack bound of the original claim is not preserved by `redo`, which
appends to `undoStack` without a cap check (see the counterexample). -/
theorem c3_bounded_undo_stack (ops : List HistOp) (e : Editor)
    (h : e.undoStack.length + e.redoStack.length ≤ maxUndoStates) :
    (applyHistOps ops e).undoStack.length ≤ maxUndoStates := by
  induction ops generalizing e with
  | nil =>
    simp only [applyHistOps, List.foldl_nil]
    omega
  | cons op rest ih =>
    have hstep := histSumStep e op h
    have hfold : applyHistOps (op :: rest) e = applyHistOps rest (applyHistOp e op) := rfl
    rw [hfold]
    exact ih _ hstep

/-- A state whose stacks each satisfy the claimed bound: `undoStack` holds
100 snapshots and `redoStack` one. -/
def c3Bad : Editor := { initEditor with
    undoStack := List.replicate 100 [""], redoStack := [["y"]] }

/-- Counterexample to C3 as stated: from a state whose stacks both satisfy
the 100-entry bound, a single `redo` grows `undoStack` to 101 entries. -/
theorem c3_redo_overflow_counterexample :
    c3Bad.undoStack.length ≤ maxUndoStates ∧ c3Bad.redoStack.length ≤ maxUndoStates ∧
    (redo c3Bad).undoStack.length = 101 := by decide

/-- Witness for C3 (amended) from the initial state through a
push/push/undo/redo interleaving. -/
theorem c3_bounded_undo_stack_witness :
    initEditor.undoStack.length + initEditor.redoStack.length ≤ maxUndoStates ∧
    (applyHistOps [HistOp.push, HistOp.push, HistOp.undoOp, HistOp.redoOp]
      initEditor).undoStack.length ≤ maxUndoStates :=
  ⟨by decide,
   c3_bounded_undo_stack [HistOp.push, HistOp.push, HistOp.undoOp, HistOp.redoOp]
     initEditor (by decide)⟩

/-- The backing file for the C4 scenario: three lines editable with chunk
size 2. -/
def c4File : List String := ["l1", "l2", "l3"]

/-- Chunk 0 of `c4File` loaded with `maxLines = 2`: two lines, truncated. -/
def c4Loaded : Editor := loadFile c4File { initEditor with maxLines := 2 }

/-- The loaded chunk edited down to the single line `"l2"` by three `delete`
calls at the cursor position (0,0). -/
def c4Edited : Editor := delete (delete (delete c4Loaded))

/-- C4 is violated by the code: after editing chunk 0 of a 3-line file
(chunk size 2) down to one line and saving — a spillover save that shrinks
the file to `["l2", "l3"]` while `truncated` stays true — `loadNextChunk`
probes an empty next window, but the source has already overwritten
`e.lines` with the empty slice and returns without restoring it, so the
document is left with zero lines, contradicting the claimed
`len(lines) ≥ 1` invariant and the spec's "the operation is a no-op". -/
theorem c4_load_next_chunk_empties_lines :
    c4Loaded.lines = ["l1", "l2"] ∧ c4Loaded.truncated = true ∧
    c4Edited.lines = ["l2"] ∧ c4Edited.currentChunk = 0 ∧
    (saveFile c4File c4Edited).1 = ["l2", "l3"] ∧
    (saveFile c4File c4Edited).2.modified = false ∧
    (saveFile c4File c4Edited).2.truncated = true ∧
    (loadNextChunk (saveFile c4File c4Edited).1 (saveFile c4File c4Edited).2).lines.length
      = 0 := by decide

/-- The C5 scenario: search term "hello", four lines, cursor at (0,0). -/
def c5Editor : Editor := { initEditor with
    lines := ["Hello world", "This is a test", "hello again", "Another line"],
    searchTerm := "hello" }

/-- Counterexample to C5 as stated: the first `findNext` from (0,0) does not
place the cursor on line 0 — phase one starts at column `cursorX + 1 = 1`,
skipping the occurrence of "hello" at (0,0), and the wrap phase scans the
empty line range `[0, 0)`. -/
theorem c5_first_match_counterexample : (findNext c5Editor).cursorY ≠ 0 := by decide

/-- C5 (amended): with search term "hello" over
`["Hello world", "This is a test", "hello again", "Another line"]` and the
cursor initially at (0,0), three successive `findNext` calls place the
cursor on line 2 first (the match at (0,0) is skipped because search starts
at column `cursorX + 1`), then wrap to line 0, then line 2 again. -/
theorem c5_find_next_cycle :
    (findNext c5Editor).cursorY = 2 ∧ (findNext c5Editor).cursorX = 0 ∧
    (findNext (findNext c5Editor)).cursorY = 0 ∧
    (findNext (findNext c5Editor)).cursorX = 0 ∧
    (findNext (findNext (findNext c5Editor))).cursorY = 2 := by decide

theorem insertCharStack (e : Editor) (ch : Char) :
    (insertChar e ch).undoStack = (pushUndoState e).undoStack := by
  simp only [insertChar, invalidateWordCount, clearSearch]
  split_ifs <;> rfl

theorem insertNewlineStack (e : Editor) :
    (insertNewline e).undoStack = (pushUndoState e).undoStack := by
  simp only [insertNewline, invalidateWordCount, clearSearch]
  split_ifs <;> rfl

theorem backspaceStack (e : Editor) :
    (backspace e).undoStack = (pushUndoState e).undoStack := by
  simp only [backspace, invalidateWordCount, clearSearch]
  split_ifs <;> rfl

theorem deleteStack (e : Editor) :
    (delete e).undoStack = (pushUndoState e).undoStack := by
  simp only [delete, invalidateWordCount, clearSearch]
  split_ifs <;> rfl

theorem deleteSelectionStack (e : Editor) (hsel : e.selectionStart = true) :
    (deleteSelection e).undoStack = (pushUndoState e).undoStack := by
  rw [deleteSelection, if_neg (by simp [hsel])]
  simp only [invalidateWordCount, clearSearch, clearSelection]
  split_ifs <;> try rfl
  all_goals (rcases hget : List.get? _ _ with _ | line <;> simp [hget])

theorem pasteStackNoSel (e : Editor) (hclip : ¬ e.clipboard = "") (hsel : e.selectionStart = false) :
    (paste e).undoStack = (pushUndoState e).undoStack := by
  rw [paste, if_neg hclip]
  have hps : (clearSearch (pushUndoState e)).selectionStart = false := hsel
  simp only [hps, if_false]
  split <;> rfl

theorem pasteStackSel (e : Editor) (hclip : ¬ e.clipboard = "") (hsel : e.selectionStart = true) :
    (paste e).undoStack = (pushUndoState (clearSearch (pushUndoState e))).undoStack := by
  rw [paste, if_neg hclip]
  have hps : (clearSearch (pushUndoState e)).selectionStart = true := hsel
  simp only [hps, if_true]
  split <;> exact deleteSelectionStack _ hps

theorem pushLen (e : Editor) (hcap : e.undoStack.length ≤ maxUndoStates) :
    (pushUndoState e).undoStack.length = min (e.undoStack.length + 1) maxUndoStates := by
  rw [(pushStacks e).1]
  split_ifs with h <;>
    simp only [List.length_drop, List.length_append, List.length_cons, List.length_nil,
      maxUndoStates] at * <;> omega

/-- C8 (amended): below the history cap, one inserted rune, one newline, one
backspace, one forward delete, one selection deletion, and one paste with no
active selection each grow `undoStack` by exactly one snapshot (the `min`
with the cap expresses the FIFO eviction at 100 entries); a paste performed
while a selection is active pushes two snapshots — one in `paste` itself and
a second inside the `deleteSelection` it invokes — not one as the original
claim states (see the counterexample). -/
theorem c8_snapshot_granularity (e : Editor) (ch : Char)
    (hcap : e.undoStack.length ≤ maxUndoStates) :
    ((insertChar e ch).undoStack.length = min (e.undoStack.length + 1) maxUndoStates) ∧
    ((insertNewline e).undoStack.length = min (e.undoStack.length + 1) maxUndoStates) ∧
    ((backspace e).undoStack.length = min (e.undoStack.length + 1) maxUndoStates) ∧
    ((delete e).undoStack.length = min (e.undoStack.length + 1) maxUndoStates) ∧
    (e.selectionStart = true →
      (deleteSelection e).undoStack.length = min (e.undoStack.length + 1) maxUndoStates) ∧
    (¬ e.clipboard = "" → e.selectionStart = false →
      (paste e).undoStack.length = min (e.undoStack.length + 1) maxUndoStates) ∧
    (¬ e.clipboard = "" → e.selectionStart = true →
      (paste e).undoStack.length
        = min (min (e.undoStack.length + 1) maxUndoStates + 1) maxUndoStates) := by
  refine ⟨?_, ?_, ?_, ?_, ?_, ?_, ?_⟩
  · rw [insertCharStack, pushLen e hcap]
  · rw [insertNewlineStack, pushLen e hcap]
  · rw [backspaceStack, pushLen e hcap]
  · rw [deleteStack, pushLen e hcap]
  · intro hsel; rw [deleteSelectionStack e hsel, pushLen e hcap]
  · intro hclip hsel; rw [pasteStackNoSel e hclip hsel, pushLen e hcap]
  · intro hclip hsel
    rw [pasteStackSel e hclip hsel]
    have h1 : (clearSearch (pushUndoState e)).undoStack = (pushUndoState e).undoStack := rfl
    have h2 : (clearSearch (pushUndoState e)).undoStack.length ≤ maxUndoStates := by
      rw [h1, pushLen e hcap]; simp [maxUndoStates]
    rw [pushLen _ h2, h1, pushLen e hcap]

/-- The C8 counterexample state: one baseline snapshot, non-empty clipboard,
active selection covering the first character of the single line "ab". -/
def c8Editor : Editor := { initEditor with
    lines := ["ab"], undoStack := [["ab"]], clipboard := "v",
    selectionStart := true, selectionStartX := 0, selectionStartY := 0,
    cursorX := 1, cursorY := 0 }

/-- Counterexample to C8 as stated: a paste performed while a selection is
active grows the undo history by two entries, not one. -/
theorem c8_paste_two_snapshots_counterexample :
    (paste c8Editor).undoStack.length = c8Editor.undoStack.length + 2 ∧
    ¬ (paste c8Editor).undoStack.length = c8Editor.undoStack.length + 1 := by decide

/-- Witness for C8 (amended) at the concrete state `c8Editor` (cap satisfied,
clipboard non-empty, selection active) and at the same state with the
selection cleared. -/
theorem c8_snapshot_granularity_witness :
    c8Editor.undoStack.length ≤ maxUndoStates ∧
    (insertChar c8Editor 'a').undoStack.length
      = min (c8Editor.undoStack.length + 1) maxUndoStates ∧
    (paste c8Editor).undoStack.length
      = min (min (c8Editor.undoStack.length + 1) maxUndoStates + 1) maxUndoStates ∧
    (paste { c8Editor with selectionStart := false }).undoStack.length
      = min ({ c8Editor with selectionStart := false }.undoStack.length + 1) maxUndoStates :=
  ⟨by decide,
   (c8_snapshot_granularity c8Editor 'a' (by decide)).1,
   (c8_snapshot_granularity c8Editor 'a' (by decide)).2.2.2.2.2.2 (by decide) (by decide),
   (c8_snapshot_granularity { c8Editor with selectionStart := false } 'a'
     (by decide)).2.2.2.2.2.1 (by decide) (by decide)⟩

theorem decaySnapOffsetY (x : Editor) : (momentumDecaySnap x).offsetY = x.offsetY := rfl

theorem decaySnapMomentum (x : Editor) : (momentumDecaySnap x).scrollMomentum
    = (if x.scrollMomentum * x.momentumDecay < 1/10 ∧
        -(1/10) < x.scrollMomentum * x.momentumDecay then (0:ℚ)
       else x.scrollMomentum * x.momentumDecay) := rfl

theorem moveDecay (e : Editor) : (momentumMove e).momentumDecay = e.momentumDecay := by
  rw [momentumMove]; dsimp only; split_ifs <;> rfl

/-- C9 (amended): with the constants the editor is built with
(`maxScrollMomentum = 250`, `momentumDecay = 0.85`): accumulated wheel
momentum is clamped to `[-250, 250]`; each frame with momentum of magnitude
above 0.1 moves `offsetY` by `trunc(momentum·0.1)` — truncation toward zero,
`int(x)` in the source, not `round` as the original claim states (see the
counterexample) — with a minimum of 1 in the direction of travel, clamped to
the boundaries 0 and `max(len(lines) − height + 1, 0)`; momentum is then
multiplied by 0.85 and becomes exactly 0 once its magnitude drops below 0.1
or the movement was clamped at a boundary.  Both truncated quantities are
positive, so `Int.floor` renders the truncation. -/
theorem c9_momentum_frame_rule (e : Editor) (d : ℚ)
    (hmax : e.maxScrollMomentum = 250) (hdecay : e.momentumDecay = 17/20) :
    (|(addScrollMomentum e d).scrollMomentum| ≤ 250) ∧
    (e.scrollMomentum > 1/10 →
      (applyScrollMomentum e).offsetY
        = min (e.offsetY + max ⌊e.scrollMomentum * (1/10)⌋ 1)
            (max ((e.lines.length : Int) - e.height + 1) 0)) ∧
    (e.scrollMomentum < -(1/10) →
      (applyScrollMomentum e).offsetY
        = max (e.offsetY - max ⌊(-e.scrollMomentum) * (1/10)⌋ 1) 0) ∧
    (-(1/10) ≤ e.scrollMomentum → e.scrollMomentum ≤ 1/10 →
      (applyScrollMomentum e).offsetY = e.offsetY ∧
      (applyScrollMomentum e).scrollMomentum = 0) ∧
    (e.scrollMomentum > 1/10 →
      e.offsetY + max ⌊e.scrollMomentum * (1/10)⌋ 1
        > max ((e.lines.length : Int) - e.height + 1) 0 →
      (applyScrollMomentum e).scrollMomentum = 0) ∧
    (e.scrollMomentum > 1/10 →
      e.offsetY + max ⌊e.scrollMomentum * (1/10)⌋ 1
        ≤ max ((e.lines.length : Int) - e.height + 1) 0 →
      (applyScrollMomentum e).scrollMomentum
        = (if |e.scrollMomentum * (17/20)| < 1/10 then 0
            else e.scrollMomentum * (17/20))) ∧
    (e.scrollMomentum < -(1/10) →
      e.offsetY - max ⌊(-e.scrollMomentum) * (1/10)⌋ 1 < 0 →
      (applyScrollMomentum e).scrollMomentum = 0) ∧
    (e.scrollMomentum < -(1/10) →
      0 ≤ e.offsetY - max ⌊(-e.scrollMomentum) * (1/10)⌋ 1 →
      (applyScrollMomentum e).scrollMomentum
        = (if |e.scrollMomentum * (17/20)| < 1/10 then 0
            else e.scrollMomentum * (17/20))) := by
  refine ⟨?_, ?_, ?_, ?_, ?_, ?_, ?_, ?_⟩
  · simp only [addScrollMomentum, hmax]
    split_ifs with h1 h2
    · norm_num
    · norm_num
    · rw [abs_le]; constructor <;> linarith
  · intro hm
    have hne : ¬ e.scrollMomentum = 0 := by intro h; rw [h] at hm; norm_num at hm
    rw [applyScrollMomentum, if_neg hne, decaySnapOffsetY, momentumMove, if_pos hm]
    dsimp only
    generalize hk : ⌊e.scrollMomentum * (1/10)⌋ = k
    split_ifs <;> dsimp only <;> omega
  · intro hm
    have hne : ¬ e.scrollMomentum = 0 := by intro h; rw [h] at hm; norm_num at hm
    have hnp : ¬ e.scrollMomentum > 1/10 := by linarith
    rw [applyScrollMomentum, if_neg hne, decaySnapOffsetY, momentumMove, if_neg hnp, if_pos hm]
    dsimp only
    generalize hk : ⌊(-e.scrollMomentum) * (1/10)⌋ = k
    split_ifs <;> dsimp only <;> omega
  · intro hlo hhi
    by_cases hz : e.scrollMomentum = 0
    · rw [applyScrollMomentum, if_pos hz]
      exact ⟨rfl, hz⟩
    · have hnp : ¬ e.scrollMomentum > 1/10 := by linarith
      have hnn : ¬ e.scrollMomentum < -(1/10) := by linarith
      rw [applyScrollMomentum, if_neg hz]
      have hmove : momentumMove e = e := by
        rw [momentumMove, if_neg hnp, if_neg hnn]
      rw [decaySnapOffsetY, decaySnapMomentum, hmove, hdecay]
      refine ⟨rfl, ?_⟩
      rw [if_pos]
      constructor <;> nlinarith [abs_le.mpr ⟨hlo, hhi⟩]
  · intro hm hbound
    have hne : ¬ e.scrollMomentum = 0 := by intro h; rw [h] at hm; norm_num at hm
    rw [applyScrollMomentum, if_neg hne, decaySnapMomentum]
    have hmove : (momentumMove e).scrollMomentum = 0 := by
      rw [momentumMove, if_pos hm]
      dsimp only
      generalize hk : ⌊e.scrollMomentum * (1/10)⌋ = k at hbound ⊢
      split_ifs <;> first | rfl | (exfalso; omega)
    rw [hmove]
    rw [if_pos]
    norm_num
  · intro hm hbound
    have hne : ¬ e.scrollMomentum = 0 := by intro h; rw [h] at hm; norm_num at hm
    rw [applyScrollMomentum, if_neg hne, decaySnapMomentum]
    have hmove : (momentumMove e).scrollMomentum = e.scrollMomentum := by
      rw [momentumMove, if_pos hm]
      dsimp only
      generalize hk : ⌊e.scrollMomentum * (1/10)⌋ = k at hbound ⊢
      split_ifs <;> first | rfl | (exfalso; omega)
    rw [hmove, moveDecay, hdecay]
    have hpos : 0 < e.scrollMomentum * (17/20) := by nlinarith
    rw [abs_of_pos hpos]
    split_ifs with h1 h2 h3
    · rfl
    · exact absurd h1.1 h2
    · exact absurd ⟨h3, by linarith⟩ h1
    · rfl
  · intro hm hbound
    have hne : ¬ e.scrollMomentum = 0 := by intro h; rw [h] at hm; norm_num at hm
    have hnp : ¬ e.scrollMomentum > 1/10 := by linarith
    rw [applyScrollMomentum, if_neg hne, decaySnapMomentum]
    have hmove : (momentumMove e).scrollMomentum = 0 := by
      rw [momentumMove, if_neg hnp, if_pos hm]
      dsimp only
      generalize hk : ⌊(-e.scrollMomentum) * (1/10)⌋ = k at hbound ⊢
      split_ifs <;> first | rfl | (exfalso; omega)
    rw [hmove]
    rw [if_pos]
    norm_num
  · intro hm hbound
    have hne : ¬ e.scrollMomentum = 0 := by intro h; rw [h] at hm; norm_num at hm
    have hnp : ¬ e.scrollMomentum > 1/10 := by linarith
    rw [applyScrollMomentum, if_neg hne, decaySnapMomentum]
    have hmove : (momentumMove e).scrollMomentum = e.scrollMomentum := by
      rw [momentumMove, if_neg hnp, if_pos hm]
      dsimp only
      generalize hk : ⌊(-e.scrollMomentum) * (1/10)⌋ = k at hbound ⊢
      split_ifs <;> first | rfl | (exfalso; omega)
    rw [hmove, moveDecay, hdecay]
    have hneg : e.scrollMomentum * (17/20) < 0 := by nlinarith
    rw [abs_of_neg hneg]
    split_ifs with h1 h2 h3
    · rfl
    · exact absurd (by linarith [h1.2] : -(e.scrollMomentum * (17/20)) < 1/10) h2
    · exact absurd ⟨by linarith, by linarith⟩ h1
    · rfl

/-- The C9 counterexample state: momentum 19 over a 100-line document with a
10-row viewport at the top. -/
def c9Editor : Editor := { initEditor with
    scrollMomentum := 19, lines := List.replicate 100 "", height := 10 }

/-- Counterexample to C9 as stated: at momentum 19 the frame moves `offsetY`
by `int(19 · 0.1) = 1`, not by `round(19 · 0.1) = 2`. -/
theorem c9_truncation_counterexample :
    c9Editor.offsetY = 0 ∧
    round (c9Editor.scrollMomentum * (1/10)) = 2 ∧
    (applyScrollMomentum c9Editor).offsetY = 1 ∧
    ¬ (applyScrollMomentum c9Editor).offsetY
        = c9Editor.offsetY + round (c9Editor.scrollMomentum * (1/10)) := by
  have hfl : ⌊(19:ℚ) * (1/10)⌋ = 1 := by norm_num [Int.floor_eq_iff]
  have h2 : round (c9Editor.scrollMomentum * (1/10)) = 2 := by
    show round ((19:ℚ) * (1/10)) = 2
    rw [round_eq]; norm_num [Int.floor_eq_iff]
  have h1 : (applyScrollMomentum c9Editor).offsetY = 1 := by
    norm_num [applyScrollMomentum, momentumMove, momentumDecaySnap, c9Editor, initEditor,
      List.length_replicate, hfl]
  exact ⟨rfl, h2, h1, by rw [h1, h2]; decide⟩

/-- The negative-momentum state for the C9 witness. -/
def c9Down : Editor := { c9Editor with scrollMomentum := -19, offsetY := 50 }

/-- The small-momentum state for the C9 witness. -/
def c9Small : Editor := { c9Editor with scrollMomentum := 1/20 }

/-- The at-the-bottom state for the C9 witness (bottom limit
`100 − 10 + 1 = 91`). -/
def c9Bottom : Editor := { c9Editor with offsetY := 91 }

/-- The at-the-top upward-scrolling state for the C9 witness. -/
def c9Top : Editor := { c9Editor with scrollMomentum := -19, offsetY := 0 }

/-- Witness for C9 (amended), exercising the clamp, both movement
directions, the sub-threshold snap, both boundary stops, and the decay
after frames in both directions. -/
theorem c9_momentum_frame_rule_witness :
    (|(addScrollMomentum c9Editor 300).scrollMomentum| ≤ 250) ∧
    ((applyScrollMomentum c9Editor).offsetY
      = min (c9Editor.offsetY + max ⌊c9Editor.scrollMomentum * (1/10)⌋ 1)
          (max ((c9Editor.lines.length : Int) - c9Editor.height + 1) 0)) ∧
    ((applyScrollMomentum c9Down).offsetY
      = max (c9Down.offsetY - max ⌊(-c9Down.scrollMomentum) * (1/10)⌋ 1) 0) ∧
    ((applyScrollMomentum c9Small).offsetY = c9Small.offsetY ∧
     (applyScrollMomentum c9Small).scrollMomentum = 0) ∧
    ((applyScrollMomentum c9Bottom).scrollMomentum = 0) ∧
    ((applyScrollMomentum c9Editor).scrollMomentum
      = (if |c9Editor.scrollMomentum * (17/20)| < 1/10 then 0
          else c9Editor.scrollMomentum * (17/20))) ∧
    ((applyScrollMomentum c9Top).scrollMomentum = 0) ∧
    ((applyScrollMomentum c9Down).scrollMomentum
      = (if |c9Down.scrollMomentum * (17/20)| < 1/10 then 0
          else c9Down.scrollMomentum * (17/20))) :=
  ⟨(c9_momentum_frame_rule c9Editor 300 rfl rfl).1,
   (c9_momentum_frame_rule c9Editor 0 rfl rfl).2.1
     (by show (19:ℚ) > 1/10; norm_num),
   (c9_momentum_frame_rule c9Down 0 rfl rfl).2.2.1
     (by show (-19:ℚ) < -(1/10); norm_num),
   (c9_momentum_frame_rule c9Small 0 rfl rfl).2.2.2.1
     (by show -(1/10) ≤ (1/20:ℚ); norm_num) (by show (1/20:ℚ) ≤ 1/10; norm_num),
   (c9_momentum_frame_rule c9Bottom 0 rfl rfl).2.2.2.2.1
     (by show (19:ℚ) > 1/10; norm_num)
     (by
       have hfl : ⌊(19:ℚ) * (1/10)⌋ = 1 := by norm_num [Int.floor_eq_iff]
       show (91:Int) + max ⌊(19:ℚ) * (1/10)⌋ 1
         > max (((List.replicate 100 "").length : Int) - 10 + 1) 0
       rw [hfl]; norm_num [List.length_replicate]),
   (c9_momentum_frame_rule c9Editor 0 rfl rfl).2.2.2.2.2.1
     (by show (19:ℚ) > 1/10; norm_num)
     (by
       have hfl : ⌊(19:ℚ) * (1/10)⌋ = 1 := by norm_num [Int.floor_eq_iff]
       show (0:Int) + max ⌊(19:ℚ) * (1/10)⌋ 1
         ≤ max (((List.replicate 100 "").length : Int) - 10 + 1) 0
       rw [hfl]; norm_num [List.length_replicate]),
   (c9_momentum_frame_rule c9Top 0 rfl rfl).2.2.2.2.2.2.1
     (by show (-19:ℚ) < -(1/10); norm_num)
     (by
       have hfl : ⌊(-(-19:ℚ)) * (1/10)⌋ = 1 := by norm_num [Int.floor_eq_iff]
       show (0:Int) - max ⌊(-(-19:ℚ)) * (1/10)⌋ 1 < 0
       rw [hfl]; norm_num),
   (c9_momentum_frame_rule c9Down 0 rfl rfl).2.2.2.2.2.2.2
     (by show (-19:ℚ) < -(1/10); norm_num)
     (by
       have hfl : ⌊(-(-19:ℚ)) * (1/10)⌋ = 1 := by norm_num [Int.floor_eq_iff]
       show (0:Int) ≤ (50:Int) - max ⌊(-(-19:ℚ)) * (1/10)⌋ 1
       rw [hfl]; norm_num)⟩

/-- C10: every effective `undo` (more than one `undoStack` entry) and every
effective `redo` (non-empty `redoStack`) sets the `modified` flag to true
unconditionally — the assignment does not inspect the adopted snapshot — and
neither `undo` nor `redo` ever clears an already-set flag; a successful
`saveFile` (either branch) clears it. -/
theorem c10_undo_redo_set_modified (e : Editor) (fileLines : List String) :
    (e.undoStack.length > 1 → (undo e).modified = true) ∧
    (e.redoStack.length > 0 → (redo e).modified = true) ∧
    (e.modified = true → (undo e).modified = true) ∧
    (e.modified = true → (redo e).modified = true) ∧
    ((saveFile fileLines e).2.modified = false) := by
  have hu : ∀ x : Editor, x.undoStack.length > 1 → (undo x).modified = true := by
    intro x h; rw [undo, if_pos h]; rfl
  have hr : ∀ x : Editor, x.redoStack.length > 0 → (redo x).modified = true := by
    intro x h; rw [redo, if_pos h]; rfl
  refine ⟨hu e, hr e, ?_, ?_, ?_⟩
  · intro hm
    by_cases h : e.undoStack.length > 1
    · exact hu e h
    · rw [undo, if_neg h]; exact hm
  · intro hm
    by_cases h : e.redoStack.length > 0
    · exact hr e h
    · rw [redo, if_neg h]; exact hm
  · rw [saveFile]; split_ifs <;> rfl

/-- The C10 witness state: effective undo and redo available, flag set. -/
def c10Editor : Editor := { initEditor with
    undoStack := [["a"], ["b"]], redoStack := [["c"]], modified := true, lines := ["b"] }

/-- Witness for C10 at a concrete state where undo and redo are both
effective and the snapshot adopted by `undo` equals the live document. -/
theorem c10_undo_redo_set_modified_witness :
    c10Editor.undoStack.length > 1 ∧ c10Editor.redoStack.length > 0 ∧
    (undo c10Editor).modified = true ∧ (redo c10Editor).modified = true ∧
    ((saveFile [] c10Editor).2.modified = false) :=
  ⟨by decide, by decide,
   (c10_undo_redo_set_modified c10Editor []).1 (by decide),
   (c10_undo_redo_set_modified c10Editor []).2.1 (by decide),
   (c10_undo_redo_set_modified c10Editor []).2.2.2.2⟩
